import Mathlib

/-!
Shallow embedding of the "Jelly Belly Explorer" single-page application
(ListView / GalleryView / DetailView and their shared helpers).

Strings are Lean `String`s; character-level operations work on `String.data`
(`List Char`).  JavaScript's `toLowerCase` / `toUpperCase` / `trim` are
modelled on the ASCII range via `Char.toLower` / `Char.toUpper` /
`Char.isWhitespace`, which agree with JavaScript there.  JavaScript numbers
are modelled as `Int` (no claim depends on float formatting).  Network
calls are modelled as oracle fields of type `Except Unit JSValue`:
`.error ()` stands for a rejected promise (network error, timeout), and
`.ok v` for a resolved response body.
-/

/-- Lexicographic `≤` on character lists by code point, matching the
JavaScript `<`/`>` comparison used by the sort comparator. -/
def lexLe : List Char → List Char → Bool
  | [], _ => true
  | _ :: _, [] => false
  | a :: as, b :: bs => if a = b then lexLe as bs else decide (a < b)

/-- Strict lexicographic `<` on character lists by code point. -/
def lexLt (a b : List Char) : Bool := lexLe a b && !lexLe b a

/-- `needle` occurs at the head of `hay` (prefix test for `hasSub`). -/
def leadMatch : List Char → List Char → Bool
  | [], _ => true
  | _ :: _, [] => false
  | a :: as, b :: bs => a = b && leadMatch as bs

/-- `needle` occurs somewhere inside `hay`: JavaScript `String.prototype.includes`. -/
def hasSub (needle : List Char) : List Char → Bool
  | [] => needle.isEmpty
  | c :: t => leadMatch needle (c :: t) || hasSub needle t

/-- JavaScript `String.prototype.trim` (ASCII whitespace model). -/
def jsTrimL (l : List Char) : List Char :=
  ((l.dropWhile Char.isWhitespace).reverse.dropWhile Char.isWhitespace).reverse

/-- `trim` on strings. -/
def jsTrim (s : String) : String := ⟨jsTrimL s.data⟩

/-- Lower-casing a whole string, ASCII model of `toLowerCase`. -/
def jsLower (s : String) : String := ⟨s.data.map Char.toLower⟩

/-- A character matched by the slug regexp's `[a-z0-9]` class. -/
def isSlugKeep (c : Char) : Bool :=
  (decide ('a' ≤ c) && decide (c ≤ 'z')) || (decide ('0' ≤ c) && decide (c ≤ '9'))

/-- `replace(/[^a-z0-9]+/g, '-')`: each maximal run of characters outside
`[a-z0-9]` becomes a single hyphen.  The boolean argument records whether
we are currently inside such a run. -/
def collapseRuns : Bool → List Char → List Char
  | _, [] => []
  | inRun, c :: cs =>
    if isSlugKeep c then c :: collapseRuns false cs
    else if inRun then collapseRuns true cs
    else '-' :: collapseRuns true cs

/-- `replace(/(^-|-$)/g, '')`: removes one leading and one trailing hyphen. -/
def stripEdgeHyphens (l : List Char) : List Char :=
  let l1 := match l with
    | '-' :: t => t
    | other => other
  (match l1.reverse with
    | '-' :: t => t
    | other => other).reverse

/-- `slugify` from ListView/GalleryView/DetailView:
lower-case, collapse non-alphanumeric runs to single hyphens, strip edge hyphens. -/
def slugify (name : String) : String :=
  ⟨stripEdgeHyphens (collapseRuns false (name.data.map Char.toLower))⟩

/-- The canonical `Bean` record (the TypeScript type: optional fields may be absent). -/
structure Bean where
  id : String
  name : String
  description : Option String := none
  imageUrl : Option String := none
  group : Option String := none
  color : Option String := none
deriving DecidableEq, Repr

/-- `stableId` from the source: the bean's own `id` whenever `b.id` is
truthy and its trim is truthy, else the synthetic `name-<slug>-<i>` id. -/
def stableId (b : Bean) (i : Nat) : String :=
  if b.id ≠ "" ∧ jsTrim b.id ≠ "" then b.id
  else "name-" ++ slugify b.name ++ "-" ++ toString i

/-- `list.map((b, i) => stableId(b, i))` starting at index `i0`. -/
def stableIdsFrom : Nat → List Bean → List String
  | _, [] => []
  | i, b :: t => stableId b i :: stableIdsFrom (i + 1) t

/-- The order-specific identifier list of a rendered collection. -/
def stableIds (l : List Bean) : List String := stableIdsFrom 0 l

/- Untyped JavaScript values, as far as this program inspects them.
Objects and arrays carry their own list types so that all recursion below
is plain structural recursion. -/
mutual
/-- An untyped JavaScript value. -/
inductive JSValue where
  | null
  | undefined
  | str (s : String)
  | num (n : Int)
  | boolean (b : Bool)
  | obj (fields : JSFields)
  | arr (elems : JSElems)
deriving DecidableEq, Repr

/-- The field list of a JavaScript object. -/
inductive JSFields where
  | nil
  | cons (key : String) (val : JSValue) (rest : JSFields)
deriving DecidableEq, Repr

/-- The element list of a JavaScript array. -/
inductive JSElems where
  | nil
  | cons (head : JSValue) (rest : JSElems)
deriving DecidableEq, Repr
end

/-- `v == null || v === undefined` — the values skipped by `??`. -/
def isNullish : JSValue → Bool
  | .null => true
  | .undefined => true
  | _ => false

/-- JavaScript truthiness (our `num` is an `Int`, so no NaN case). -/
def jsTruthy : JSValue → Bool
  | .null => false
  | .undefined => false
  | .str s => s ≠ ""
  | .num n => n ≠ 0
  | .boolean b => b
  | .obj _ => true
  | .arr _ => true

/-- Lookup in an object's field list (keys are unique in a JS object). -/
def lookupField : JSFields → String → JSValue
  | .nil, _ => .undefined
  | .cons k v rest, key => if k = key then v else lookupField rest key

/-- `r?.key`: property access with optional chaining; any non-object
(including `null`/`undefined` and primitives) yields `undefined` for the
property names this program reads. -/
def getField (v : JSValue) (key : String) : JSValue :=
  match v with
  | .obj fs => lookupField fs key
  | _ => .undefined

/-- `JSElems` as a Lean list, for the collection-processing code. -/
def jsElemsToList : JSElems → List JSValue
  | .nil => []
  | .cons v rest => v :: jsElemsToList rest

/- JavaScript `String(·)` coercion.  Arrays stringify as their elements
(`null`/`undefined` elements as empty) joined by commas; plain objects as
`"[object Object]"`. -/
mutual
/-- JavaScript `String(·)` coercion. -/
def jsToString : JSValue → String
  | .null => "null"
  | .undefined => "undefined"
  | .str s => s
  | .num n => toString n
  | .boolean b => if b then "true" else "false"
  | .obj _ => "[object Object]"
  | .arr es => jsElemsJoin es

/-- Array stringification: `Array.prototype.join(',')` with `String(·)` per element. -/
def jsElemsJoin : JSElems → String
  | .nil => ""
  | .cons v rest =>
    (match v with
      | .null => ""
      | .undefined => ""
      | w => jsToString w)
    ++ (match rest with
      | .nil => ""
      | r => "," ++ jsElemsJoin r)
end

/-- A right-nested `a ?? b ?? ... ?? dflt` chain: first non-nullish value. -/
def firstNonNullish (vs : List JSValue) (dflt : JSValue) : JSValue :=
  match vs with
  | [] => dflt
  | v :: rest => if isNullish v then firstNonNullish rest dflt else v

/-- What `normalizeOne` actually produces at runtime: `id` and `name` are
coerced to strings, while the remaining fields keep whatever (non-nullish)
raw value was found, defaulting to the empty string. -/
structure NormBean where
  id : String
  name : String
  description : JSValue
  imageUrl : JSValue
  group : JSValue
  color : JSValue
deriving DecidableEq, Repr

/-- `normalizeOne` from the source, field for field. -/
def normalizeOne (raw : JSValue) : NormBean :=
  { id := jsToString (firstNonNullish
      [getField raw "id", getField raw "_id", getField raw "beanId",
       getField raw "Id", getField raw "ID"] (.str ""))
  , name := jsToString (firstNonNullish
      [getField raw "name", getField raw "flavor", getField raw "title"] (.str "Unknown"))
  , description := firstNonNullish
      [getField raw "description", getField raw "desc", getField raw "about"] (.str "")
  , imageUrl := firstNonNullish
      [getField raw "imageUrl", getField raw "image", getField raw "img",
       getField raw "photoUrl", getField raw "thumbnail"] (.str "")
  , group := firstNonNullish
      [getField raw "group", getField raw "category", getField raw "type",
       getField raw "family"] (.str "")
  , color := firstNonNullish
      [getField raw "color", getField raw "hexColor", getField raw "hex"] (.str "") }

/-- The spec's schema-mapping primitive: try candidate field names in
priority order, first non-nullish wins, else the default. -/
def resolveAliases (raw : JSValue) : List String → JSValue → JSValue
  | [], dflt => dflt
  | k :: rest, dflt =>
    if isNullish (getField raw k) then resolveAliases raw rest dflt
    else getField raw k

/-- The normalizer as the spec words it (§4.1): alias lists per target
field, string coercion on `id`/`name`, literal defaults. -/
def normalizeSpec (raw : JSValue) : NormBean :=
  { id := jsToString (resolveAliases raw ["id", "_id", "beanId", "Id", "ID"] (.str ""))
  , name := jsToString (resolveAliases raw ["name", "flavor", "title"] (.str "Unknown"))
  , description := resolveAliases raw ["description", "desc", "about"] (.str "")
  , imageUrl := resolveAliases raw ["imageUrl", "image", "img", "photoUrl", "thumbnail"] (.str "")
  , group := resolveAliases raw ["group", "category", "type", "family"] (.str "")
  , color := resolveAliases raw ["color", "hexColor", "hex"] (.str "") }

/-- The raw-id extractor used inline by `fetchBeanById`/`fetchAllIds`:
`String(r?.id ?? r?._id ?? r?.beanId ?? r?.Id ?? r?.ID ?? '')`. -/
def rawIdOf (x : JSValue) : String :=
  jsToString (firstNonNullish
    [getField x "id", getField x "_id", getField x "beanId",
     getField x "Id", getField x "ID"] (.str ""))

/-- `Array.isArray(data) ? data : (data as any)?.data ?? []`, followed by an
array method (`.map`/`.find`): a non-array, non-nullish `data` field makes
that method call throw (`.error ()`). -/
def unwrapList (data : JSValue) : Except Unit (List JSValue) :=
  match data with
  | .arr es => .ok (jsElemsToList es)
  | d =>
    match getField d "data" with
    | .null => .ok []
    | .undefined => .ok []
    | .arr es => .ok (jsElemsToList es)
    | _ => .error ()

/-- The two collection endpoints: `.error ()` is a rejected request
(network error / 15 s timeout), `.ok v` a resolved JSON body. -/
structure Net where
  endpointA : Except Unit JSValue
  endpointB : Except Unit JSValue

/-- One tier of `fetchBeans`: unwrap, normalize each element, keep only
records with truthy `id` and `name`. -/
def fetchTier (e : Except Unit JSValue) : Except Unit (List NormBean) :=
  match e with
  | .error _ => .error ()
  | .ok data =>
    match unwrapList data with
    | .error _ => .error ()
    | .ok l => .ok ((l.map normalizeOne).filter (fun b => b.id != "" && b.name != ""))

/-- `fetchBeans`: endpoint A, and on any failure inside the `try` the same
procedure against endpoint B (whose failure propagates to the caller). -/
def fetchBeans (net : Net) : Except Unit (List NormBean) :=
  match fetchTier net.endpointA with
  | .ok beansA => .ok beansA
  | .error _ => fetchTier net.endpointB

/-- The state a List/Gallery load effect leaves behind. -/
structure LoadedState where
  all : List NormBean
  error : Option String
deriving DecidableEq, Repr

/-- The ListView load effect: `fetchBeans`, falling back to the bundled
`mockData` (normalized, unfiltered) when the result is empty or an error. -/
def listViewLoad (net : Net) (mockData : List JSValue) : LoadedState :=
  match fetchBeans net with
  | .ok beans =>
    if beans.isEmpty then ⟨mockData.map normalizeOne, none⟩ else ⟨beans, none⟩
  | .error _ => ⟨mockData.map normalizeOne, none⟩

/-- The GalleryView load effect (same code as the ListView one). -/
def galleryViewLoad (net : Net) (mockData : List JSValue) : LoadedState :=
  match fetchBeans net with
  | .ok beans =>
    if beans.isEmpty then ⟨mockData.map normalizeOne, none⟩ else ⟨beans, none⟩
  | .error _ => ⟨mockData.map normalizeOne, none⟩

/-- One tier of `fetchAllIds`: unwrap, map to raw ids, drop empty ids. -/
def idsTier (e : Except Unit JSValue) : Except Unit (List String) :=
  match e with
  | .error _ => .error ()
  | .ok data =>
    match unwrapList data with
    | .error _ => .error ()
    | .ok l => .ok ((l.map rawIdOf).filter (fun s => s != ""))

/-- `fetchAllIds`: primary endpoint, falling back to secondary; a secondary
failure propagates to the caller (effect C). -/
def fetchAllIds (net : Net) : Except Unit (List String) :=
  match idsTier net.endpointA with
  | .ok l => .ok l
  | .error _ => idsTier net.endpointB

/-- `list.find(x => rawIdOf(x) === id)`. -/
def findByRawId (l : List JSValue) (id : String) : Option JSValue :=
  l.find? (fun x => rawIdOf x == id)

/-- The three endpoints `fetchBeanById` can touch. -/
structure DetailNet where
  single : Except Unit JSValue
  listA : Except Unit JSValue
  listB : Except Unit JSValue

/-- Stage 3 of `fetchBeanById`: secondary collection, linear search;
every failure is swallowed (`return null`). -/
def beanByIdStageThree (listB : Except Unit JSValue) (id : String) : Option NormBean :=
  match listB with
  | .error _ => none
  | .ok data =>
    match unwrapList data with
    | .error _ => none
    | .ok l =>
      match findByRawId l id with
      | some f => if jsTruthy f then some (normalizeOne f) else none
      | none => none

/-- Stage 2 of `fetchBeanById`: primary collection, linear search; on any
failure or miss, fall through to stage 3. -/
def beanByIdStageTwo (net : DetailNet) (id : String) : Option NormBean :=
  match net.listA with
  | .error _ => beanByIdStageThree net.listB id
  | .ok data =>
    match unwrapList data with
    | .error _ => beanByIdStageThree net.listB id
    | .ok l =>
      match findByRawId l id with
      | some f =>
        if jsTruthy f then some (normalizeOne f) else beanByIdStageThree net.listB id
      | none => beanByIdStageThree net.listB id

/-- `fetchBeanById`: direct single-record endpoint, unwrapping
`data && data.data ? data.data : data` (`?? null`), searching when the
candidate is an array; all failures fall back to stages 2 and 3.  Note the
function catches every exception internally: it returns `none` rather than
throwing. -/
def fetchBeanById (net : DetailNet) (id : String) : Option NormBean :=
  match net.single with
  | .ok data =>
    let candidate :=
      if jsTruthy data && jsTruthy (getField data "data") then getField data "data" else data
    (match candidate with
      | .arr es =>
        (match findByRawId (jsElemsToList es) id with
          | some found => if jsTruthy found then some (normalizeOne found) else none
          | none => none)
      | c => if jsTruthy c then some (normalizeOne c) else none)
  | .error _ => beanByIdStageTwo net id

/-- `list[i]` on a JavaScript array: `none` models `undefined`. -/
def jsGetElem {β : Type} (l : List β) (i : Int) : Option β :=
  if h : 0 ≤ i ∧ i.toNat < l.length then some (l.get ⟨i.toNat, h.2⟩) else none

/-- `Array.prototype.indexOf` starting at position `i` (−1 when missing). -/
def jsIndexOfFrom : Nat → List String → String → Int
  | _, [], _ => -1
  | i, a :: t, x => if a = x then (i : Int) else jsIndexOfFrom (i + 1) t x

/-- `Array.prototype.indexOf` (−1 when missing). -/
def jsIndexOf (l : List String) (x : String) : Int := jsIndexOfFrom 0 l x

/-- The opaque router payload `location.state` as DetailView reads it. -/
structure NavState (β : Type) where
  ids : Option (List String) := none
  index : Option Int := none
  src : Option String := none
  beans : Option (List β) := none
deriving DecidableEq, Repr

/-- `passed.beans?.length` as a truthiness test. -/
def hasCarried {β : Type} (passed : NavState β) : Bool :=
  match passed.beans with
  | some l => !l.isEmpty
  | none => false

/-- The DetailView component state relevant to the claims. -/
structure DetailState (β : Type) where
  bean : Option β
  loading : Bool
  error : Option String
  ids : List String
  idx : Int
deriving DecidableEq, Repr

/-- DetailView's `useState` initial values:
`bean = null`, `loading = true`, `error = null`,
`ids = passed.ids ?? []`, `idx = passed.index ?? -1`. -/
def initDetail {β : Type} (passed : NavState β) : DetailState β :=
  ⟨none, true, none, passed.ids.getD [], passed.index.getD (-1)⟩

/-- Effect A: when a record collection was carried, recompute the
order-specific ids over it, locate the route id, and set the visible
record and index directly (position 0 when the id is not found). -/
def effectA (id : String) (passed : NavState Bean) (s : DetailState Bean) : DetailState Bean :=
  match passed.beans with
  | some list =>
    if list.isEmpty then s
    else
      let nextIds := stableIds list
      let pos := jsIndexOf nextIds id
      { s with
          ids := nextIds
          idx := if pos ≥ 0 then pos else 0
          bean := if pos ≥ 0 then jsGetElem list pos else list.head?
          loading := false
          error := none }
  | none => s

/-- Effect B: the deep-link single-record fetch, skipped entirely when a
non-empty collection was carried.  `fetchRes` is the settled promise of
`fetchBeanById id`. -/
def effectB {β : Type} (passed : NavState β) (fetchRes : Except Unit (Option β))
    (s : DetailState β) : DetailState β :=
  if hasCarried passed then s
  else
    match fetchRes with
    | .ok (some one) => { s with bean := some one, error := none, loading := false }
    | .ok none => { s with bean := none, error := some "Not found.", loading := false }
    | .error _ => { s with bean := none, error := some "Failed to load item.", loading := false }

/-- Effect C: the deep-link identifier-list fetch, skipped when a
non-empty collection was carried or ids are already present; a fetch
exception is ignored (the `catch` is empty). -/
def effectC {β : Type} (passed : NavState β) (idsRes : Except Unit (List String))
    (s : DetailState β) : DetailState β :=
  if hasCarried passed then s
  else if !s.ids.isEmpty then s
  else
    match idsRes with
    | .ok l => { s with ids := l }
    | .error _ => s

/-- Effect D: compute the missing index by linear search (deep link),
defaulting to 0 when the id is not found. -/
def effectD {β : Type} (id : String) (s : DetailState β) : DetailState β :=
  if s.idx ≥ 0 ∨ s.ids.isEmpty ∨ id = "" then s
  else
    let pos := jsIndexOf s.ids id
    { s with idx := if pos ≥ 0 then pos else 0 }

/-- One settled pass of DetailView's four effects after a navigation that
carried state: A, then B, then C, then D. -/
def detailMountCarried (id : String) (passed : NavState Bean)
    (fetchRes : Except Unit (Option Bean)) (idsRes : Except Unit (List String)) :
    DetailState Bean :=
  effectD id (effectC passed idsRes (effectB passed fetchRes (effectA id passed (initDetail passed))))

/-- One settled pass of DetailView's effects on a deep link (no carried
router state at all): effect A does not fire. -/
def detailMountDeep (id : String) (fetchRes : Except Unit (Option NormBean))
    (idsRes : Except Unit (List String)) : DetailState NormBean :=
  effectD id (effectC {} idsRes (effectB {} fetchRes (initDetail ({} : NavState NormBean))))

/-- What DetailView renders, following its early returns. -/
inductive DetailRender (β : Type) where
  | loadingMsg
  | errorText (msg : String)
  | notFound
  | content (b : β)
deriving DecidableEq, Repr

/-- The render dispatch of DetailView. -/
def renderDetail {β : Type} (s : DetailState β) : DetailRender β :=
  if s.loading then .loadingMsg
  else
    match s.error with
    | some m => .errorText m
    | none =>
      match s.bean with
      | none => .notFound
      | some b => .content b

/-- `canPrev`: `idx > 0`. -/
def canPrev {β : Type} (s : DetailState β) : Bool := decide (s.idx > 0)

/-- `canNext`: `idx >= 0 && idx < ids.length - 1`. -/
def canNext {β : Type} (s : DetailState β) : Bool :=
  decide (s.idx ≥ 0) && decide (s.idx < (s.ids.length : Int) - 1)

/-- The payload of a `navigate('/detail/…', { state: … })` call. -/
structure NavAction (β : Type) where
  target : String
  ids : List String
  index : Int
  src : Option String
  beans : Option (List β)
deriving DecidableEq, Repr

/-- `ids[i]` interpolated into the URL (an out-of-range access would
stringify as `"undefined"`). -/
def jsStringAt (l : List String) (i : Int) : String := (jsGetElem l i).getD "undefined"

/-- `goPrev`: guarded by `canPrev`; navigates to `ids[idx-1]`, passing
`idx-1` and the carried collection unchanged. -/
def goPrev {β : Type} (passed : NavState β) (s : DetailState β) : Option (NavAction β) :=
  if canPrev s then
    some ⟨jsStringAt s.ids (s.idx - 1), s.ids, s.idx - 1, passed.src, passed.beans⟩
  else none

/-- `goNext`: guarded by `canNext`; navigates to `ids[idx+1]`, passing
`idx+1` and the carried collection unchanged. -/
def goNext {β : Type} (passed : NavState β) (s : DetailState β) : Option (NavAction β) :=
  if canNext s then
    some ⟨jsStringAt s.ids (s.idx + 1), s.ids, s.idx + 1, passed.src, passed.beans⟩
  else none

/-- The `Link` payload ListView attaches to the item at index `i` of the
sorted, filtered collection. -/
def listItemNav (sortedL : List Bean) (i : Nat) (h : i < sortedL.length) : NavAction Bean :=
  ⟨stableId (sortedL.get ⟨i, h⟩) i, stableIds sortedL, (i : Int), some "list", some sortedL⟩

/-- The ListView filter predicate body: case-insensitive substring match
of the (already lower-cased) needle against name, group, or description;
a missing group/description contributes `false` (`?? false`). -/
def beanMatches (needle : String) (b : Bean) : Bool :=
  hasSub needle.data (jsLower b.name).data
  || (match b.group with
      | some g => hasSub needle.data (jsLower g).data
      | none => false)
  || (match b.description with
      | some d => hasSub needle.data (jsLower d).data
      | none => false)

/-- The `filtered` memo of ListView: `needle = q.trim().toLowerCase()`;
an empty needle returns `all` unchanged. -/
def filteredView (q : String) (all : List Bean) : List Bean :=
  let needle := jsLower (jsTrim q)
  if needle = "" then all else all.filter (beanMatches needle)

/-- The two sort keys of ListView. -/
inductive SortKey where
  | name
  | id
deriving DecidableEq, Repr

/-- The two sort directions of ListView. -/
inductive SortDir where
  | asc
  | desc
deriving DecidableEq, Repr

/-- The comparator's key: the chosen field, lower-cased
(`(sortKey === 'name' ? a.name : a.id).toString().toLowerCase()`). -/
def sortKeyOf (k : SortKey) (b : Bean) : List Char :=
  (match k with
    | .name => b.name
    | .id => b.id).data.map Char.toLower

/-- The comparator returns `≤ 0` exactly on this relation: key-wise
lexicographic order, flipped for descending. -/
def beanLe (k : SortKey) (d : SortDir) (a b : Bean) : Bool :=
  match d with
  | .asc => lexLe (sortKeyOf k a) (sortKeyOf k b)
  | .desc => lexLe (sortKeyOf k b) (sortKeyOf k a)

/-- `beanLe` as a decidable relation for `insertionSort`. -/
def BeanLeP (k : SortKey) (d : SortDir) (a b : Bean) : Prop := beanLe k d a b = true

instance (k : SortKey) (d : SortDir) : DecidableRel (BeanLeP k d) :=
  fun a b => instDecidableEqBool (beanLe k d a b) true

/-- The `sorted` memo of ListView.  `Array.prototype.sort` with a
consistent comparator is a stable sort by the comparator's `≤ 0`
relation; any stable sorting algorithm yields the same list, so we use
insertion sort. -/
def sortedView (k : SortKey) (d : SortDir) (l : List Bean) : List Bean :=
  List.insertionSort (BeanLeP k d) l

/-- `bucketOf` from GalleryView: the `group` field when truthy with a
truthy trim, otherwise `name.charAt(0).toUpperCase()`. -/
def charAtZeroUpper (s : String) : String :=
  match s.data with
  | [] => ""
  | c :: _ => ⟨[Char.toUpper c]⟩

/-- `bucketOf` from GalleryView. -/
def bucketOf (b : Bean) : String :=
  match b.group with
  | some g => if g ≠ "" ∧ jsTrim g ≠ "" then g else charAtZeroUpper b.name
  | none => charAtZeroUpper b.name

/-- `new Set(...)` insertion: keep first occurrences, in insertion order. -/
def jsSetAdd (acc : List String) (x : String) : List String :=
  if x ∈ acc then acc else acc ++ [x]

/-- `Array.from(new Set(l))`. -/
def jsSetOfList (l : List String) : List String := l.foldl jsSetAdd []

/-- Default `Array.prototype.sort()` on strings: lexicographic by code unit. -/
def StrLeP (a b : String) : Prop := lexLe a.data b.data = true

instance : DecidableRel StrLeP :=
  fun a b => instDecidableEqBool (lexLe a.data b.data) true

/-- The `allBuckets` memo of GalleryView: distinct buckets, sorted. -/
def allBuckets (all : List Bean) : List String :=
  List.insertionSort StrLeP (jsSetOfList (all.map bucketOf))

/-- The auto-select effect of GalleryView: when nothing is active and
buckets exist, activate the first `min(3, n)` buckets; otherwise leave
the active selection unchanged. -/
def autoSelect (active allB : List String) : List String :=
  if active.isEmpty && !allB.isEmpty then allB.take (min 3 allB.length) else active

/-- What ListView/GalleryView render at the top level. -/
inductive ListRender where
  | loadingMsg
  | errorText (msg : String)
  | items (l : List NormBean)
deriving DecidableEq, Repr

/-- The render dispatch of ListView/GalleryView once loading finished. -/
def renderLoaded (s : LoadedState) : ListRender :=
  match s.error with
  | some m => .errorText m
  | none => .items s.all

/-- The unwrap/normalize/filter procedure both fetch tiers share:
normalize each element, retain only records with non-empty id and name. -/
def normalizeFilter (l : List JSValue) : List NormBean :=
  (l.map normalizeOne).filter (fun nb => nb.id != "" && nb.name != "")

/-- The List filter as the claim words it: the search text itself (not its
trim) must be a case-insensitive substring of name, group, or description. -/
def filteredClaim (q : String) (all : List Bean) : List Bean :=
  all.filter (fun b => beanMatches (jsLower q) b)

/-- The three beans of the spec's sort example. -/
def demoSortBeans : List Bean :=
  [⟨"1", "Apple", none, none, none, none⟩,
   ⟨"2", "cherry", none, none, none, none⟩,
   ⟨"3", "Banana", none, none, none, none⟩]

/-- The four beans of the spec's gallery auto-select example. -/
def demoGalleryBeans : List Bean :=
  [⟨"1", "a", none, none, some "Citrus", none⟩,
   ⟨"2", "b", none, none, some "Mint", none⟩,
   ⟨"3", "c", none, none, some "Berry", none⟩,
   ⟨"4", "d", none, none, some "Tropical", none⟩]

/-- A bean whose id is non-empty but padded with whitespace. -/
def beanPaddedId : Bean := ⟨" x ", "n", none, none, none, none⟩

/-- A bean named "ab" (counterexample data for the filter claim). -/
def beanAB : Bean := ⟨"1", "ab", none, none, none, none⟩

/-- A bean whose group is a single space (whitespace-only but non-empty). -/
def beanBlankGroup : Bean := ⟨"1", "apple", none, none, some " ", none⟩

/-- A concrete normalized record used in the Detail-view scenarios. -/
def nbLime : NormBean := ⟨"7", "Lime", .str "", .str "", .str "", .str ""⟩

/-- A raw payload record with usable `id` and `name`. -/
def rawGood : JSValue := .obj (.cons "id" (.str "1") (.cons "name" (.str "Lime") .nil))

/-- A raw payload record with no id alias at all (normalizes to `id = ""`). -/
def rawBad : JSValue := .obj (.cons "name" (.str "NoId") .nil)

theorem lexLe_refl (a : List Char) : lexLe a a = true := by
  induction a with
  | nil => rfl
  | cons c t ih => simp [lexLe, ih]

theorem lexLe_total (a b : List Char) : lexLe a b = true ∨ lexLe b a = true := by
  induction a generalizing b with
  | nil => left; rfl
  | cons c t ih =>
    cases b with
    | nil => right; rfl
    | cons d s =>
      by_cases h : c = d
      · subst h
        simpa [lexLe] using ih s
      · rcases lt_or_gt_of_ne h with hlt | hgt
        · left; simp [lexLe, h, hlt]
        · right; simp [lexLe, Ne.symm h, hgt]

theorem lexLe_trans {a b c : List Char} (h1 : lexLe a b = true) (h2 : lexLe b c = true) :
    lexLe a c = true := by
  induction a generalizing b c with
  | nil => rfl
  | cons x xs ih =>
    cases b with
    | nil => simp [lexLe] at h1
    | cons y ys =>
      cases c with
      | nil => simp [lexLe] at h2
      | cons z zs =>
        by_cases hxy : x = y
        · subst hxy
          by_cases hxz : x = z
          · subst hxz
            simp only [lexLe, if_pos rfl] at h1 h2 ⊢
            exact ih h1 h2
          · simpa [lexLe, hxz] using (by simpa [lexLe, hxz] using h2)
        · have hx : x < y := by
            simpa [lexLe, hxy] using h1
          by_cases hyz : y = z
          · subst hyz
            simp [lexLe, hxy, hx]
          · have hy : y < z := by
              simpa [lexLe, hyz] using h2
            have hxz : x < z := lt_trans hx hy
            simp [lexLe, ne_of_lt hxz, hxz]

instance : IsTotal String StrLeP :=
  ⟨fun a b => lexLe_total a.data b.data⟩

instance : IsTrans String StrLeP :=
  ⟨fun _ _ _ h1 h2 => lexLe_trans h1 h2⟩

instance (k : SortKey) (d : SortDir) : IsTotal Bean (BeanLeP k d) := by
  constructor
  intro a b
  cases d with
  | asc => exact lexLe_total (sortKeyOf k a) (sortKeyOf k b)
  | desc => exact lexLe_total (sortKeyOf k b) (sortKeyOf k a)

instance (k : SortKey) (d : SortDir) : IsTrans Bean (BeanLeP k d) := by
  constructor
  intro a b c h1 h2
  cases d with
  | asc => exact lexLe_trans h1 h2
  | desc => exact lexLe_trans h2 h1

theorem beanLe_of_key_eq (k : SortKey) (d : SortDir) {a b : Bean}
    (h : sortKeyOf k a = sortKeyOf k b) : BeanLeP k d a b := by
  cases d with
  | asc => simpa [BeanLeP, beanLe, h] using lexLe_refl (sortKeyOf k b)
  | desc => simpa [BeanLeP, beanLe, h] using lexLe_refl (sortKeyOf k b)

theorem orderedInsert_filter_of_pos {α : Type} (r : α → α → Prop) [DecidableRel r]
    (p : α → Bool) (a : α) (ha : p a = true) (hr : ∀ b, p b = true → r a b) :
    ∀ s : List α, (s.orderedInsert r a).filter p = a :: s.filter p := by
  intro s
  induction s with
  | nil => simp [ha]
  | cons b t ih =>
    by_cases hab : r a b
    · simp [List.orderedInsert, hab, List.filter_cons, ha]
    · have hpb : p b = false := by
        cases hb : p b with
        | false => rfl
        | true => exact absurd (hr b hb) hab
      simp [List.orderedInsert, hab, List.filter_cons, hpb, ih]

theorem orderedInsert_filter_of_neg {α : Type} (r : α → α → Prop) [DecidableRel r]
    (p : α → Bool) (a : α) (ha : p a = false) :
    ∀ s : List α, (s.orderedInsert r a).filter p = s.filter p := by
  intro s
  induction s with
  | nil => simp [ha]
  | cons b t ih =>
    by_cases hab : r a b
    · simp [List.orderedInsert, hab, List.filter_cons, ha]
    · simp [List.orderedInsert, hab, List.filter_cons, ih]

/-- Stability of insertion sort, phrased through filters: elements that
are pairwise tied under `r` keep their original relative order. -/
theorem insertionSort_filter_stable {α : Type} (r : α → α → Prop) [DecidableRel r]
    (p : α → Bool) (hp : ∀ a b, p a = true → p b = true → r a b) :
    ∀ l : List α, (l.insertionSort r).filter p = l.filter p := by
  intro l
  induction l with
  | nil => rfl
  | cons a t ih =>
    cases ha : p a with
    | true =>
      rw [List.insertionSort,
        orderedInsert_filter_of_pos r p a ha (fun b hb => hp a b ha hb), ih,
        List.filter_cons_of_pos ha]
    | false =>
      rw [List.insertionSort, orderedInsert_filter_of_neg r p a ha, ih,
        List.filter_cons_of_neg (by simp [ha])]

theorem jsIndexOfFrom_of_not_mem {x : String} {l : List String} (h : x ∉ l) :
    ∀ i, jsIndexOfFrom i l x = -1 := by
  induction l with
  | nil => intro i; rfl
  | cons a t ih =>
    intro i
    have hax : a ≠ x := fun he => h (he ▸ List.mem_cons_self a t)
    have ht : x ∉ t := fun hm => h (List.mem_cons_of_mem a hm)
    simpa [jsIndexOfFrom, hax] using ih ht (i + 1)

theorem jsIndexOf_of_not_mem {x : String} {l : List String} (h : x ∉ l) :
    jsIndexOf l x = -1 :=
  jsIndexOfFrom_of_not_mem h 0

theorem effectC_error_eq {β : Type} (passed : NavState β) (s : DetailState β) :
    effectC passed (.error ()) s = s := by
  rw [effectC]
  split
  · rfl
  · split <;> rfl

theorem jsSetAdd_nodup {acc : List String} (h : acc.Nodup) (x : String) :
    (jsSetAdd acc x).Nodup := by
  rw [jsSetAdd]
  split
  · exact h
  · next hx => simp [List.nodup_append, h, hx]

theorem jsSetOfList_aux_nodup (l : List String) :
    ∀ acc : List String, acc.Nodup → (l.foldl jsSetAdd acc).Nodup := by
  induction l with
  | nil => intro acc h; exact h
  | cons a t ih => intro acc h; exact ih _ (jsSetAdd_nodup h a)

theorem jsSetOfList_nodup (l : List String) : (jsSetOfList l).Nodup :=
  jsSetOfList_aux_nodup l [] List.nodup_nil

theorem mem_jsSetAdd {acc : List String} {x y : String} :
    y ∈ jsSetAdd acc x ↔ y ∈ acc ∨ y = x := by
  rw [jsSetAdd]
  split
  · next hx =>
    constructor
    · exact Or.inl
    · rintro (h | rfl)
      · exact h
      · exact hx
  · simp

theorem mem_jsSetOfList_aux (l : List String) :
    ∀ (acc : List String) (y : String), y ∈ l.foldl jsSetAdd acc ↔ y ∈ acc ∨ y ∈ l := by
  induction l with
  | nil => intro acc y; simp
  | cons a t ih =>
    intro acc y
    rw [List.foldl_cons, ih]
    rw [mem_jsSetAdd]
    constructor
    · rintro ((h | rfl) | h)
      · exact Or.inl h
      · exact Or.inr (List.mem_cons_self _ _)
      · exact Or.inr (List.mem_cons_of_mem _ h)
    · rintro (h | h)
      · exact Or.inl (Or.inl h)
      · rcases List.mem_cons.mp h with rfl | h
        · exact Or.inl (Or.inr rfl)
        · exact Or.inr h

theorem mem_jsSetOfList {l : List String} {y : String} :
    y ∈ jsSetOfList l ↔ y ∈ l := by
  simpa using mem_jsSetOfList_aux l [] y

/-- C1.  The claim as frozen says the resolver returns the bean's *trimmed*
id; the code returns the id untouched (`String(b.id)`), so the claim fails
on any id padded with whitespace.  This is the amended statement: the
resolver returns the bean's own (un-trimmed) `id` when the id is non-empty
with a non-empty trim, otherwise the synthetic `"name-" + slug(name) + "-"
+ i`; the result is always non-empty, and `slug` behaves as described
(`slug("Jelly Bean!! #2") = "jelly-bean-2"`). -/
theorem C1_stableId_amended (b : Bean) (i : Nat) :
    (b.id ≠ "" ∧ jsTrim b.id ≠ "" → stableId b i = b.id) ∧
    (¬(b.id ≠ "" ∧ jsTrim b.id ≠ "") →
      stableId b i = "name-" ++ slugify b.name ++ "-" ++ toString i) ∧
    stableId b i ≠ "" ∧
    slugify "Jelly Bean!! #2" = "jelly-bean-2" := by
  refine ⟨fun h => by rw [stableId, if_pos h], fun h => by rw [stableId, if_neg h], ?_, by decide⟩
  rw [stableId]
  split
  · next h => exact h.1
  · intro h
    have h2 := congrArg String.length h
    simp [String.length_append] at h2
    exact absurd h2.1.1.1 (by decide)

/-- C1, counterexample to the frozen claim: for an id padded with
whitespace the resolver returns the padded id, not the trimmed id. -/
theorem C1_counterexample :
    beanPaddedId.id ≠ "" ∧ jsTrim beanPaddedId.id ≠ "" ∧
    stableId beanPaddedId 0 ≠ jsTrim beanPaddedId.id := by decide

/-- C1, witness: the amended theorem applied at concrete beans. -/
theorem C1_witness :
    stableId beanPaddedId 0 = beanPaddedId.id ∧
    stableId ⟨"", "Jelly Bean!! #2", none, none, none, none⟩ 3 =
      "name-" ++ slugify "Jelly Bean!! #2" ++ "-" ++ toString 3 := by
  constructor
  · exact (C1_stableId_amended beanPaddedId 0).1 (by decide)
  · exact (C1_stableId_amended ⟨"", "Jelly Bean!! #2", none, none, none, none⟩ 3).2.1 (by decide)

/-- C2.  `normalizeOne` is total over arbitrary input values (it is a Lean
function on all of `JSValue`), always yields string `id`/`name` fields (by
the type of `NormBean`), and agrees field-for-field with the spec's
alias-resolution description: string coercion of the first non-nullish
alias for `id` (else `""`) and `name` (else `"Unknown"`), and the raw
first non-nullish alias value (else `""`) for the other four fields. -/
theorem C2_normalize_refines : ∀ raw : JSValue, normalizeOne raw = normalizeSpec raw :=
  fun _ => rfl

/-- C3.  `fetchBeans` unwraps a bare array or an object with a `data`
array, normalizes, and keeps only records with non-empty id and name
(`fetchTier`); endpoint B is consulted with the identical procedure
exactly when the endpoint-A tier fails; and when the whole fetch fails or
comes back empty, the List and Gallery load effects store the bundled
dataset normalized without the id/name filter and no error text. -/
theorem C3_fetch_fallback (a b : Except Unit JSValue) (mock : List JSValue) :
    (∀ es, fetchTier (.ok (.arr es)) = .ok (normalizeFilter (jsElemsToList es))) ∧
    (∀ fs es, lookupField fs "data" = .arr es →
      fetchTier (.ok (.obj fs)) = .ok (normalizeFilter (jsElemsToList es))) ∧
    (∀ bs, fetchTier a = .ok bs → fetchBeans ⟨a, b⟩ = .ok bs) ∧
    (fetchTier a = .error () → fetchBeans ⟨a, b⟩ = fetchTier b) ∧
    ((fetchBeans ⟨a, b⟩ = .error () ∨ fetchBeans ⟨a, b⟩ = .ok []) →
      listViewLoad ⟨a, b⟩ mock = ⟨mock.map normalizeOne, none⟩ ∧
      galleryViewLoad ⟨a, b⟩ mock = ⟨mock.map normalizeOne, none⟩ ∧
      renderLoaded (listViewLoad ⟨a, b⟩ mock) = .items (mock.map normalizeOne)) := by
  refine ⟨fun es => rfl, ?_, ?_, ?_, ?_⟩
  · intro fs es h
    simp [fetchTier, unwrapList, getField, h, normalizeFilter]
  · intro bs h
    simp [fetchBeans, h]
  · intro h
    simp [fetchBeans, h]
  · intro h
    rcases h with h | h
    · simp [listViewLoad, galleryViewLoad, renderLoaded, h]
    · simp [listViewLoad, galleryViewLoad, renderLoaded, h]

/-- C3, witness: a successful endpoint-A fetch filters out the record
with an empty id, and a double failure falls back to the normalized
bundled dataset with no error. -/
theorem C3_witness :
    fetchBeans ⟨.ok (.arr (.cons rawGood (.cons rawBad .nil))), .error ()⟩ =
      .ok (normalizeFilter [rawGood, rawBad]) ∧
    normalizeFilter [rawGood, rawBad] = [normalizeOne rawGood] ∧
    listViewLoad ⟨.error (), .error ()⟩ [rawGood, rawBad] =
      ⟨[normalizeOne rawGood, normalizeOne rawBad], none⟩ := by
  refine ⟨?_, by decide, ?_⟩
  · exact (C3_fetch_fallback (.ok (.arr (.cons rawGood (.cons rawBad .nil)))) (.error ())
      []).2.2.1 _ rfl
  · have h := ((C3_fetch_fallback (.error ()) (.error ()) [rawGood, rawBad]).2.2.2.2
      (Or.inl rfl)).1
    simpa using h

/-- C4, amended.  In the deep-link path (no carried collection), an
exception during the single-record fetch is surfaced as the terminal
"Failed to load item." message; but an exception during the
identifier-list fetch is silently ignored (the state is unchanged, so
Prev/Next merely stay disabled).  Both collection endpoints failing does
make `fetchAllIds` reject, so the ignored case is reachable. -/
theorem C4_deeplink_amended {β : Type} (passed : NavState β) (s : DetailState β)
    (a b : Except Unit JSValue) (h : hasCarried passed = false) :
    effectB passed (.error ()) s =
      { s with bean := none, error := some "Failed to load item.", loading := false } ∧
    (∀ one, effectB passed (.ok (some one)) s =
      { s with bean := some one, error := none, loading := false }) ∧
    effectC passed (.error ()) s = s ∧
    (idsTier a = .error () → idsTier b = .error () → fetchAllIds ⟨a, b⟩ = .error ()) := by
  refine ⟨?_, ?_, effectC_error_eq passed s, ?_⟩
  · simp [effectB, h]
  · intro one; simp [effectB, h]
  · intro ha hb; simp [fetchAllIds, ha, hb]

/-- C4, counterexample to the frozen claim: a deep-link mount whose
identifier-list fetch throws shows no "Failed to load" text at all — the
record renders normally and the error state stays `none`. -/
theorem C4_counterexample :
    (detailMountDeep "7" (.ok (some nbLime)) (.error ())).error = none ∧
    (detailMountDeep "7" (.ok (some nbLime)) (.error ())).error ≠ some "Failed to load item." ∧
    renderDetail (detailMountDeep "7" (.ok (some nbLime)) (.error ())) = .content nbLime := by
  decide

/-- C4, witness: the amended theorem applied to the empty router payload
and the double-failure network. -/
theorem C4_witness :
    effectB ({} : NavState NormBean) (.error ()) (initDetail {}) =
      { initDetail ({} : NavState NormBean) with
          bean := none, error := some "Failed to load item.", loading := false } ∧
    fetchAllIds ⟨.error (), .error ()⟩ = .error () := by
  refine ⟨(C4_deeplink_amended ({} : NavState NormBean) (initDetail {})
    (.error ()) (.error ()) rfl).1, ?_⟩
  exact (C4_deeplink_amended ({} : NavState NormBean) (initDetail {})
    (.error ()) (.error ()) rfl).2.2.2 rfl rfl

/-- C5.  Prev is enabled exactly when `idx > 0`, Next exactly when
`0 ≤ idx < ids.length - 1`; the transitions navigate to `ids[idx∓1]`
(which under the enabling bound is the identifier at that index), pass
`idx∓1`, and carry the incoming record collection forward unchanged; and
the ListView link for index `i` packages `i` together with the full
sorted collection and its identifier list. -/
theorem C5_prev_next {β : Type} (passed : NavState β) (s : DetailState β) :
    (canPrev s = true ↔ 0 < s.idx) ∧
    (canNext s = true ↔ 0 ≤ s.idx ∧ s.idx < (s.ids.length : Int) - 1) ∧
    (canPrev s = false → goPrev passed s = none) ∧
    (canNext s = false → goNext passed s = none) ∧
    (canPrev s = true →
      goPrev passed s =
        some ⟨jsStringAt s.ids (s.idx - 1), s.ids, s.idx - 1, passed.src, passed.beans⟩) ∧
    (canNext s = true →
      goNext passed s =
        some ⟨jsStringAt s.ids (s.idx + 1), s.ids, s.idx + 1, passed.src, passed.beans⟩) ∧
    (canNext s = true →
      ∃ t, jsGetElem s.ids (s.idx + 1) = some t ∧ jsStringAt s.ids (s.idx + 1) = t) ∧
    (canPrev s = true → s.idx - 1 < (s.ids.length : Int) →
      ∃ t, jsGetElem s.ids (s.idx - 1) = some t ∧ jsStringAt s.ids (s.idx - 1) = t) ∧
    (∀ (sortedL : List Bean) (i : Nat) (h : i < sortedL.length),
      (listItemNav sortedL i h).index = (i : Int) ∧
      (listItemNav sortedL i h).beans = some sortedL ∧
      (listItemNav sortedL i h).ids = stableIds sortedL ∧
      (listItemNav sortedL i h).src = some "list") := by
  refine ⟨by simp [canPrev], by simp [canNext, and_comm], ?_, ?_, ?_, ?_, ?_, ?_,
    fun sortedL i h => ⟨rfl, rfl, rfl, rfl⟩⟩
  · intro h; simp [goPrev, h]
  · intro h; simp [goNext, h]
  · intro h; simp [goPrev, h]
  · intro h; simp [goNext, h]
  · intro h
    have hb : 0 ≤ s.idx ∧ s.idx < (s.ids.length : Int) - 1 := by
      simpa [canNext, and_comm] using h
    have h3 : 0 ≤ s.idx + 1 := by omega
    have h4 : (s.idx + 1).toNat < s.ids.length := by omega
    refine ⟨s.ids.get ⟨(s.idx + 1).toNat, h4⟩, ?_, ?_⟩
    · rw [jsGetElem, dif_pos ⟨h3, h4⟩]
    · rw [jsStringAt, jsGetElem, dif_pos ⟨h3, h4⟩, Option.getD_some]
  · intro h hlt
    have hp : 0 < s.idx := by simpa [canPrev] using h
    have h3 : 0 ≤ s.idx - 1 := by omega
    have h4 : (s.idx - 1).toNat < s.ids.length := by omega
    refine ⟨s.ids.get ⟨(s.idx - 1).toNat, h4⟩, ?_, ?_⟩
    · rw [jsGetElem, dif_pos ⟨h3, h4⟩]
    · rw [jsStringAt, jsGetElem, dif_pos ⟨h3, h4⟩, Option.getD_some]

/-- C5, witness: the spec's example — index 2 of a 5-item collection: both
buttons enabled, Next goes to the id at index 3 with the carried
collection intact. -/
theorem C5_witness :
    canPrev (⟨none, false, none, ["a", "b", "c", "d", "e"], 2⟩ : DetailState Bean) = true ∧
    goNext ({ beans := some demoSortBeans } : NavState Bean)
        ⟨none, false, none, ["a", "b", "c", "d", "e"], 2⟩ =
      some ⟨"d", ["a", "b", "c", "d", "e"], 3, none, some demoSortBeans⟩ := by
  constructor
  · exact (C5_prev_next ({ beans := some demoSortBeans } : NavState Bean)
      ⟨none, false, none, ["a", "b", "c", "d", "e"], 2⟩).1.mpr (by decide)
  · have h := (C5_prev_next ({ beans := some demoSortBeans } : NavState Bean)
      ⟨none, false, none, ["a", "b", "c", "d", "e"], 2⟩).2.2.2.2.2.1 (by decide)
    simpa using h

/-- C6.  The sorted projection is a permutation of the filtered
collection, is ordered by the case-insensitive, direction-aware key
comparison, is stable (beans with equal keys keep their relative order,
phrased via filters), and the spec's example sorts names
`Apple, cherry, Banana` descending to `cherry, Banana, Apple`. -/
theorem C6_sort (k : SortKey) (d : SortDir) (q : String) (all : List Bean) :
    List.Perm (sortedView k d (filteredView q all)) (filteredView q all) ∧
    List.Sorted (BeanLeP k d) (sortedView k d (filteredView q all)) ∧
    (∀ key0 : List Char,
      (sortedView k d (filteredView q all)).filter (fun b => sortKeyOf k b == key0) =
        (filteredView q all).filter (fun b => sortKeyOf k b == key0)) ∧
    (sortedView .name .desc demoSortBeans).map Bean.name = ["cherry", "Banana", "Apple"] := by
  refine ⟨List.perm_insertionSort _ _, List.sorted_insertionSort _ _, ?_, by decide⟩
  intro key0
  refine insertionSort_filter_stable (BeanLeP k d) _ ?_ _
  intro a b ha hb
  have ha' : sortKeyOf k a = key0 := by simpa using ha
  have hb' : sortKeyOf k b = key0 := by simpa using hb
  exact beanLe_of_key_eq k d (ha'.trans hb'.symm)

/-- C7, amended.  The filter keeps exactly the beans matched by the
*trimmed*, lower-cased search text (the code trims before matching, which
the frozen claim omits); search text with an empty trim keeps everything. -/
theorem C7_filter_amended (q : String) (all : List Bean) :
    filteredView q all =
      all.filter (fun b => jsLower (jsTrim q) == "" || beanMatches (jsLower (jsTrim q)) b) ∧
    (jsTrim q = "" → filteredView q all = all) ∧
    (∀ b, b ∈ filteredView q all ↔
      b ∈ all ∧ (jsLower (jsTrim q) = "" ∨ beanMatches (jsLower (jsTrim q)) b = true)) := by
  have hmain : filteredView q all =
      all.filter (fun b => jsLower (jsTrim q) == "" || beanMatches (jsLower (jsTrim q)) b) := by
    rw [filteredView]
    by_cases h : jsLower (jsTrim q) = ""
    · simp [h]
    · simp only [h, if_neg h]
      have hfalse : (jsLower (jsTrim q) == "") = false := by
        simpa using h
      simp [hfalse]
  refine ⟨hmain, ?_, ?_⟩
  · intro h0
    rw [filteredView]
    have : jsLower (jsTrim q) = "" := by rw [h0]; rfl
    simp [this]
  · intro b
    rw [hmain]
    simp [List.mem_filter]

/-- C7, counterexample to the frozen claim: with search text `"a "`
(trailing space) the code matches the bean named "ab" (it searches for
the trimmed `"a"`), while the claim's untrimmed predicate rejects it. -/
theorem C7_counterexample :
    filteredView "a " [beanAB] = [beanAB] ∧ filteredClaim "a " [beanAB] = [] ∧
    filteredView "a " [beanAB] ≠ filteredClaim "a " [beanAB] := by decide

/-- C7, witness: the amended theorem applied at empty search text. -/
theorem C7_witness : filteredView "" [beanAB] = [beanAB] :=
  (C7_filter_amended "" [beanAB]).2.1 rfl

/-- C8, amended.  The bucket is the bean's `group` whenever the group is
present, non-empty *and has a non-empty trim* (the frozen claim omits the
trim condition), else the upper-cased first character of the name. -/
theorem C8_bucket_amended (b : Bean) :
    (∀ g, b.group = some g → g ≠ "" → jsTrim g ≠ "" → bucketOf b = g) ∧
    (∀ g, b.group = some g → ¬(g ≠ "" ∧ jsTrim g ≠ "") →
      bucketOf b = charAtZeroUpper b.name) ∧
    (b.group = none → bucketOf b = charAtZeroUpper b.name) ∧
    charAtZeroUpper "apple" = "A" ∧ charAtZeroUpper "" = "" := by
  refine ⟨?_, ?_, ?_, by decide, by decide⟩
  · intro g hg h1 h2
    simp only [bucketOf, hg]
    rw [if_pos ⟨h1, h2⟩]
  · intro g hg h
    simp only [bucketOf, hg]
    rw [if_neg h]
  · intro hg
    simp [bucketOf, hg]

/-- C8, counterexample to the frozen claim: a whitespace-only group is
non-empty, yet the bucket falls back to the name's first character. -/
theorem C8_counterexample :
    beanBlankGroup.group = some " " ∧ (" " : String) ≠ "" ∧
    bucketOf beanBlankGroup = "A" ∧ bucketOf beanBlankGroup ≠ " " := by decide

/-- C8, witness: the amended theorem applied at a bean with a real group
and at the whitespace-only group bean. -/
theorem C8_witness :
    bucketOf ⟨"1", "x", none, none, some "Citrus", none⟩ = "Citrus" ∧
    bucketOf beanBlankGroup = charAtZeroUpper "apple" := by
  constructor
  · exact (C8_bucket_amended ⟨"1", "x", none, none, some "Citrus", none⟩).1 "Citrus" rfl
      (by decide) (by decide)
  · exact (C8_bucket_amended beanBlankGroup).2.1 " " rfl (by decide)

/-- C9.  With no active buckets and a non-empty bucket list, the Gallery
auto-select activates the first `min(3, n)` buckets of `allBuckets`; a
non-empty active selection is never overwritten; `allBuckets` is the
duplicate-free, lexicographically sorted list of the collection's
buckets; and the spec's four-bucket example selects Berry, Citrus, Mint. -/
theorem C9_gallery_autoselect (all : List Bean) (active : List String) :
    (active = [] → allBuckets all ≠ [] →
      autoSelect active (allBuckets all) =
        (allBuckets all).take (min 3 (allBuckets all).length)) ∧
    (active ≠ [] → autoSelect active (allBuckets all) = active) ∧
    (allBuckets all).Nodup ∧
    List.Sorted StrLeP (allBuckets all) ∧
    (∀ s, s ∈ allBuckets all ↔ s ∈ all.map bucketOf) ∧
    allBuckets demoGalleryBeans = ["Berry", "Citrus", "Mint", "Tropical"] ∧
    autoSelect [] (allBuckets demoGalleryBeans) = ["Berry", "Citrus", "Mint"] := by
  refine ⟨?_, ?_, ?_, List.sorted_insertionSort _ _, ?_, by decide, by decide⟩
  · intro h1 h2
    have hE : (allBuckets all).isEmpty = false := by
      cases hA : allBuckets all with
      | nil => exact absurd hA h2
      | cons x t => rfl
    simp [autoSelect, h1, hE]
  · intro h
    have hE : active.isEmpty = false := by
      cases hA : active with
      | nil => exact absurd hA h
      | cons x t => rfl
    simp [autoSelect, hE]
  · exact ((List.perm_insertionSort StrLeP _).nodup_iff).mpr
      (jsSetOfList_nodup (all.map bucketOf))
  · intro s
    rw [allBuckets, (List.perm_insertionSort StrLeP (jsSetOfList (all.map bucketOf))).mem_iff,
      mem_jsSetOfList]

/-- C9, witness: the auto-select branch of the theorem at the example
collection with an empty active set. -/
theorem C9_witness :
    autoSelect [] (allBuckets demoGalleryBeans) =
      (allBuckets demoGalleryBeans).take (min 3 (allBuckets demoGalleryBeans).length) :=
  (C9_gallery_autoselect demoGalleryBeans []).1 rfl (by decide)

/-- C10.  When a navigation carries a non-empty collection whose
recomputed identifiers do not contain the route id, one settled pass of
the Detail effects shows the collection's first record with index 0 and
no error (never "Not found"), and the result is independent of the
network oracles — both deep-link fetch effects are skipped. -/
theorem C10_carried_unknown_id (id : String) (passed : NavState Bean) (list : List Bean)
    (fetchRes : Except Unit (Option Bean)) (idsRes : Except Unit (List String))
    (hb : passed.beans = some list) (hne : list ≠ []) (hid : id ∉ stableIds list) :
    ∃ hd, list.head? = some hd ∧
      detailMountCarried id passed fetchRes idsRes =
        ⟨some hd, false, none, stableIds list, 0⟩ ∧
      renderDetail (detailMountCarried id passed fetchRes idsRes) = .content hd ∧
      (∀ fr2 ir2, detailMountCarried id passed fr2 ir2 =
        detailMountCarried id passed fetchRes idsRes) := by
  cases list with
  | nil => exact absurd rfl hne
  | cons a t =>
    have hpos : jsIndexOf (stableIds (a :: t)) id = -1 := jsIndexOf_of_not_mem hid
    have hCarried : hasCarried passed = true := by simp [hasCarried, hb]
    have hA : effectA id passed (initDetail passed) =
        ⟨some a, false, none, stableIds (a :: t), 0⟩ := by
      simp [effectA, hb, hpos]
    have hMount : ∀ (fr : Except Unit (Option Bean)) (ir : Except Unit (List String)),
        detailMountCarried id passed fr ir =
          ⟨some a, false, none, stableIds (a :: t), 0⟩ := by
      intro fr ir
      rw [detailMountCarried, hA]
      simp [effectB, effectC, effectD, hCarried]
    exact ⟨a, rfl, hMount fetchRes idsRes, by rw [hMount fetchRes idsRes]; rfl,
      fun fr2 ir2 => (hMount fr2 ir2).trans (hMount fetchRes idsRes).symm⟩

/-- C10, witness: a carried three-bean collection and a route id matching
none of its identifiers renders the first bean at index 0. -/
theorem C10_witness :
    detailMountCarried "zzz" { beans := some demoSortBeans } (.error ()) (.error ()) =
      ⟨demoSortBeans.head?, false, none, stableIds demoSortBeans, 0⟩ := by
  obtain ⟨hd, h1, h2, h3, h4⟩ := C10_carried_unknown_id "zzz"
    { beans := some demoSortBeans } demoSortBeans (.error ()) (.error ())
    rfl (by decide) (by decide)
  rw [h2, h1]
